import Mathlib

/-!
Verification of the Sustainalytics WASM FDW (src/lib.rs) against its
natural-language specification.

The Rust source is shallowly embedded: pure helpers become Lean
functions; the HTTP transport and the JSON text codec — external
collaborators per the spec — are modelled as, respectively, queues of
pre-recorded responses inside an explicit `World` value (with a log of
issued GET requests) and parsing functions passed as parameters.
Machine integers (`i64`, `i32`) are modelled as `Int`.
-/

set_option autoImplicit false

namespace SustainalyticsFdw

/-! ### Definitions -/

/-! ## Decimal rendering (Rust `Display` for integers) -/
/-- Decimal digits of `n`, most significant first; `fuel` bounds recursion
and any `fuel > log10 n` gives the exact digits. -/
def natDecimalAux : Nat → Nat → List Char
  | 0, _ => []
  | fuel + 1, n =>
    if n < 10 then [Char.ofNat (48 + n)]
    else natDecimalAux fuel (n / 10) ++ [Char.ofNat (48 + n % 10)]

/-- Decimal digits of `n`, most significant first. -/
def natToDecimal (n : Nat) : String :=
  String.mk (natDecimalAux (n + 1) n)

/-- Rust's `format!("{}", i)` for an `i64` value. -/
def intToDecimal (i : Int) : String :=
  if i < 0 then "-" ++ natToDecimal i.natAbs else natToDecimal i.natAbs

/-! ## Rust `str::parse::<i64>` -/
def I64_MIN : Int := -(2 ^ 63)

def I64_MAX : Int := 2 ^ 63 - 1

def decDigit (c : Char) : Option Nat :=
  if 48 ≤ c.toNat ∧ c.toNat ≤ 57 then some (c.toNat - 48) else none

def decValAux : List Char → Nat → Option Nat
  | [], acc => some acc
  | c :: cs, acc =>
    match decDigit c with
    | none => none
    | some d => decValAux cs (acc * 10 + d)

/-- Rust `s.parse::<i64>()`: an optional sign followed by one or more
decimal digits, rejecting anything else and values outside `i64`. -/
def parseI64 (s : String) : Option Int :=
  match s.data with
  | [] => none
  | '+' :: cs =>
    match cs with
    | [] => none
    | _ :: _ => (decValAux cs 0).bind fun n =>
        if (n : Int) ≤ I64_MAX then some (n : Int) else none
  | '-' :: cs =>
    match cs with
    | [] => none
    | _ :: _ => (decValAux cs 0).bind fun n =>
        if I64_MIN ≤ -(n : Int) then some (-(n : Int)) else none
  | cs => (decValAux cs 0).bind fun n =>
      if (n : Int) ≤ I64_MAX then some (n : Int) else none

/-! ## `normalize_take` (src/lib.rs lines 94-99) -/
def DEFAULT_TAKE : Int := 10

def MAX_TAKE : Int := 10

def normalize_take (raw : Option String) : Int :=
  match raw with
  | none => DEFAULT_TAKE
  | some s =>
    match parseI64 s with
    | none => DEFAULT_TAKE
    | some n =>
      if n < 1 then DEFAULT_TAKE
      else if n < MAX_TAKE then n else MAX_TAKE

/-! ## String helpers mirroring Rust's `str` methods -/
/-- Rust `s.trim_matches(c)`: removes every leading and trailing
occurrence of `c`. -/
def trimMatches (c : Char) (s : String) : String :=
  String.mk (((s.data.dropWhile (fun ch => ch == c)).reverse.dropWhile
    (fun ch => ch == c)).reverse)

/-- Rust `s.trim_end_matches(c)`: removes every trailing occurrence of
`c`. -/
def trimEndMatches (c : Char) (s : String) : String :=
  String.mk ((s.data.reverse.dropWhile (fun ch => ch == c)).reverse)

/-! ## `urlencoding::encode` -/
/-- UTF-8 bytes of a character (as `Nat` values `< 256`). -/
def utf8Bytes (c : Char) : List Nat :=
  let n := c.toNat
  if n < 128 then [n]
  else if n < 2048 then [192 + n / 64, 128 + n % 64]
  else if n < 65536 then [224 + n / 4096, 128 + (n / 64) % 64, 128 + n % 64]
  else [240 + n / 262144, 128 + (n / 4096) % 64, 128 + (n / 64) % 64,
        128 + n % 64]

/-- Bytes the `urlencoding` crate leaves unencoded: ASCII alphanumerics
and `-`, `.`, `_`, `~`. -/
def isUrlSafe (b : Nat) : Bool :=
  (65 ≤ b && b ≤ 90) || (97 ≤ b && b ≤ 122) || (48 ≤ b && b ≤ 57) ||
    b == 45 || b == 46 || b == 95 || b == 126

def hexUpper (n : Nat) : Char :=
  if n < 10 then Char.ofNat (48 + n) else Char.ofNat (55 + n)

def encodeByte (b : Nat) : String :=
  if isUrlSafe b then String.singleton (Char.ofNat b)
  else String.mk ['%', hexUpper (b / 16), hexUpper (b % 16)]

/-- Rust `urlencoding::encode`: percent-encodes every UTF-8 byte outside the
unreserved set. -/
def encode (s : String) : String :=
  String.join (s.data.map (fun c => String.join ((utf8Bytes c).map encodeByte)))

/-! ## JSON values (`serde_json::Value`, numbers restricted to `i64`) -/
inductive Json where
  | null : Json
  | bool (b : Bool) : Json
  | num (n : Int) : Json
  | str (s : String) : Json
  | arr (items : List Json) : Json
  | obj (fields : List (String × Json)) : Json
deriving Inhabited

def lookupField : List (String × Json) → String → Option Json
  | [], _ => none
  | (k, v) :: rest, key => if k = key then some v else lookupField rest key

/-- Embeds `serde_json::Value::get(key)` (object member lookup). -/
def Json.get : Json → String → Option Json
  | .obj fields, key => lookupField fields key
  | _, _ => none

/-- Embeds `serde_json::Value::as_array`. -/
def Json.as_array : Json → Option (List Json)
  | .arr items => some items
  | _ => none

/-- Embeds `serde_json::Value::as_str`. -/
def Json.as_str : Json → Option String
  | .str s => some s
  | _ => none

/-- Embeds `serde_json::Value::as_i64` (numbers are modelled as `i64`). -/
def Json.as_i64 : Json → Option Int
  | .num n => some n
  | _ => none

/-- The `serde_json` string escaping of one character. -/
def escapeChar (c : Char) : String :=
  if c = '"' then "\\\""
  else if c = '\\' then "\\\\"
  else if c.toNat < 32 then
    if c = '\n' then "\\n"
    else if c = '\r' then "\\r"
    else if c = '\t' then "\\t"
    else if c.toNat = 8 then "\\b"
    else if c.toNat = 12 then "\\f"
    else "\\u00" ++ String.mk [hexUpper (c.toNat / 16), hexUpper (c.toNat % 16)]
  else String.singleton c

def escapeString (s : String) : String :=
  String.mk (s.data.flatMap fun c => (escapeChar c).data)

mutual

/-- The `serde_json` compact `Display`/`to_string()` of a value. -/
def jsonToString : Json → String
  | .null => "null"
  | .bool b => if b then "true" else "false"
  | .num n => intToDecimal n
  | .str s => "\"" ++ escapeString s ++ "\""
  | .arr items => "[" ++ jsonItemsToString items ++ "]"
  | .obj fields => "\x7b" ++ jsonFieldsToString fields ++ "\x7d"

def jsonItemsToString : List Json → String
  | [] => ""
  | [x] => jsonToString x
  | x :: y :: rest => jsonToString x ++ "," ++ jsonItemsToString (y :: rest)

def jsonFieldsToString : List (String × Json) → String
  | [] => ""
  | [kv] => "\"" ++ escapeString kv.1 ++ "\":" ++ jsonToString kv.2
  | kv :: kv2 :: rest =>
    "\"" ++ escapeString kv.1 ++ "\":" ++ jsonToString kv.2 ++ "," ++
      jsonFieldsToString (kv2 :: rest)

end

/-! ## Data model (src/lib.rs lines 26-91) -/
abbrev FdwResult (α : Type) := Except String α

structure DataServicesParams where
  product_id : String
  package_ids : Option String
  field_cluster_ids : Option String
  field_ids : Option String
  take : Int
deriving Inhabited

structure DataServicesScan where
  params : DataServicesParams
  skip : Int
  page_rows : List Json
  page_idx : Nat
  done : Bool
deriving Inhabited

structure FieldMappingRow where
  product_id : String
  product_name : Option String
  package_id : Option Int
  package_name : Option String
  field_cluster_id : Option Int
  field_cluster_name : Option String
  field_id : Option Int
  field_name : Option String
  description : Option String
  field_type : Option String
  field_length : Option String
  possible_values : Option String
  grouping : Option String
  parentage : Option Json
deriving Inhabited

structure FieldMappingDefinitionsScan where
  rows : List FieldMappingRow
  idx : Nat
deriving Inhabited

inductive ScanState where
  | None : ScanState
  | DataServices : DataServicesScan → ScanState
  | FieldMappingDefinitions : FieldMappingDefinitionsScan → ScanState
deriving Inhabited

structure FdwState where
  base_url : String
  client_id : String
  client_secret : String
  cached_token : Option String
  scan : ScanState
deriving Inhabited

/-! ## HTTP transport model

The spec places the HTTP transport out of scope, so it is modelled as
two queues of pre-recorded responses (one for the token-endpoint POSTs,
one for the GETs), consumed in order, plus a log of the GET requests
actually issued (URL and bearer token). An exhausted queue stands for a
transport failure (the `?` on `http::get`/`http::post`). Parsing of
response bodies (`serde_json::from_str`) is likewise a parameter:
`parseTok` extracts the `access_token` field of a token response,
`parse` parses a generic JSON body. -/
structure HttpResponse where
  status_code : Int
  body : String
deriving Inhabited, DecidableEq

structure World where
  postResponses : List HttpResponse
  getResponses : List HttpResponse
  getLog : List (String × String)
deriving Inhabited, DecidableEq

/-- One `http::get` round-trip: consume the next queued response and log
the request's URL and bearer token. -/
def http_get (url token : String) (w : World) :
    FdwResult (HttpResponse × World) :=
  match w.getResponses with
  | [] => .error ("transport error")
  | r :: rest =>
    .ok (r, { w with getResponses := rest,
                     getLog := w.getLog ++ [(url, token)] })

/-! ## Token store (src/lib.rs lines 123-159) -/
def fetch_token (parseTok : String → Except String String)
    (st : FdwState) (w : World) : FdwResult (String × FdwState × World) :=
  match w.postResponses with
  | [] => .error ("transport error")
  | resp :: rest =>
    let w' : World := { w with postResponses := rest }
    if 200 ≤ resp.status_code ∧ resp.status_code < 300 then
      match parseTok resp.body with
      | .error e => .error ("invalid auth json: " ++ e)
      | .ok tok => .ok (tok, { st with cached_token := some tok }, w')
    else
      .error ("auth failed: status=" ++ intToDecimal resp.status_code ++
        " body=" ++ resp.body)

def ensure_token (parseTok : String → Except String String)
    (st : FdwState) (w : World) : FdwResult (String × FdwState × World) :=
  match st.cached_token with
  | some tok => .ok (tok, st, w)
  | none => fetch_token parseTok st w

/-! ## Authenticated fetch (src/lib.rs lines 161-197) -/
def get_json_with_bearer (parseTok : String → Except String String)
    (parse : String → Except String Json) (st : FdwState) (w : World)
    (url : String) : FdwResult (Int × Json × FdwState × World) :=
  match ensure_token parseTok st w with
  | .error e => .error e
  | .ok (token, st1, w1) =>
    match http_get url token w1 with
    | .error e => .error e
    | .ok (resp, w2) =>
      if resp.status_code = 401 ∨ resp.status_code = 403 then
        match fetch_token parseTok st1 w2 with
        | .error e => .error e
        | .ok (_, st2, w3) =>
          match ensure_token parseTok st2 w3 with
          | .error e => .error e
          | .ok (token2, st3, w4) =>
            match http_get url token2 w4 with
            | .error e => .error e
            | .ok (resp2, w5) =>
              match parse resp2.body with
              | .error e => .error ("invalid json: " ++ e)
              | .ok v2 => .ok (resp2.status_code, v2, st3, w5)
      else
        match parse resp.body with
        | .error e => .error ("invalid json: " ++ e)
        | .ok v => .ok (resp.status_code, v, st1, w2)

/-! ## DataServices URL and pagination (src/lib.rs lines 101-121, 199-231) -/
def build_dataservices_url (st : FdwState) (p : DataServicesParams)
    (skip : Int) : String :=
  let base := trimEndMatches '/' st.base_url
  let parts : List String :=
    ["ProductId=" ++ encode p.product_id,
     "Skip=" ++ intToDecimal skip,
     "Take=" ++ intToDecimal p.take]
  let parts := parts ++
    (match p.package_ids with
     | some v => ["PackageIds=" ++ encode v]
     | none => [])
  let parts := parts ++
    (match p.field_cluster_ids with
     | some v => ["FieldClusterIds=" ++ encode v]
     | none => [])
  let parts := parts ++
    (match p.field_ids with
     | some v => ["FieldIds=" ++ encode v]
     | none => [])
  base ++ "/v2/DataService?" ++ String.intercalate "&" parts

def load_dataservices_page (parseTok : String → Except String String)
    (parse : String → Except String Json) (st : FdwState) (w : World)
    (scan : DataServicesScan) :
    FdwResult (DataServicesScan × FdwState × World) :=
  if scan.done then .ok (scan, st, w)
  else
    let url := build_dataservices_url st scan.params scan.skip
    match get_json_with_bearer parseTok parse st w url with
    | .error e => .error e
    | .ok (status, json, st', w') =>
      if 200 ≤ status ∧ status < 300 then
        match json.as_array with
        | none => .error ("DataServices response not an array")
        | some arr =>
          if (arr.length : Int) < scan.params.take then
            .ok ({ scan with page_rows := arr, page_idx := 0, done := true },
              st', w')
          else
            .ok ({ scan with page_rows := arr, page_idx := 0,
                             skip := scan.skip + scan.params.take }, st', w')
      else
        .error ("DataServices failed: status=" ++ intToDecimal status ++
          " url=" ++ url)

def ensure_dataservices_rows (parseTok : String → Except String String)
    (parse : String → Except String Json) (st : FdwState) (w : World)
    (scan : DataServicesScan) :
    FdwResult (DataServicesScan × FdwState × World) :=
  if scan.page_idx < scan.page_rows.length then .ok (scan, st, w)
  else if scan.done then .ok (scan, st, w)
  else load_dataservices_page parseTok parse st w scan

/-! ## Tree flattening (src/lib.rs lines 233-283)

`flatten_products` is the pure flattening loop of
`load_field_mapping_definitions`: four nested `for` loops pushing one
row per field definition onto `out`, embedded as nested left folds over
an append-accumulator. The per-row field extraction (identical at each
iteration to the source's hoisted `let` bindings) is `mkRow`. -/
/-- Embeds `x.get(key).and_then(|v| v.as_array()).cloned().unwrap_or_default()`. -/
def jArrD (v : Json) (key : String) : List Json :=
  ((v.get key).bind Json.as_array).getD []

/-- Embeds `x.get(key).and_then(|v| v.as_str()).map(|s| s.to_string())`. -/
def sGet (v : Json) (key : String) : Option String :=
  (v.get key).bind Json.as_str

/-- Embeds `x.get(key).and_then(|v| v.as_i64())`. -/
def iGet (v : Json) (key : String) : Option Int :=
  (v.get key).bind Json.as_i64

def mkRow (prod pkg cl d : Json) : FieldMappingRow :=
  { product_id :=
      ((prod.get ("productId")).map
        (fun v => trimMatches '"' (jsonToString v))).getD "",
    product_name := sGet prod ("productName"),
    package_id := iGet pkg ("packageId"),
    package_name := sGet pkg ("packageName"),
    field_cluster_id := iGet cl ("fieldClusterId"),
    field_cluster_name := sGet cl ("fieldClusterName"),
    field_id := iGet d ("fieldId"),
    field_name := sGet d ("fieldName"),
    description := sGet d ("description"),
    field_type := sGet d ("fieldType"),
    field_length := sGet d ("fieldLength"),
    possible_values := sGet d ("possibleValues"),
    grouping := sGet d ("grouping"),
    parentage := d.get ("parentage") }

def flatten_products (products : List Json) : List FieldMappingRow :=
  products.foldl (fun out prod =>
    (jArrD prod ("packages")).foldl (fun out pkg =>
      (jArrD pkg ("clusters")).foldl (fun out cl =>
        (jArrD cl ("fieldDefinitions")).foldl (fun out d =>
          out ++ [mkRow prod pkg cl d]) out) out) out) []

def load_field_mapping_definitions (parseTok : String → Except String String)
    (parse : String → Except String Json) (st : FdwState) (w : World) :
    FdwResult (List FieldMappingRow × FdwState × World) :=
  let url := trimEndMatches '/' st.base_url ++ "/v2/FieldMappingDefinitions"
  match get_json_with_bearer parseTok parse st w url with
  | .error e => .error e
  | .ok (status, json, st', w') =>
    if 200 ≤ status ∧ status < 300 then
      match json.as_array with
      | none => .error ("FieldMappingDefinitions not an array")
      | some products => .ok (flatten_products products, st', w')
    else
      .error ("FieldMappingDefinitions failed: status=" ++
        intToDecimal status ++ " body=" ++ jsonToString json)

/-- Per-leaf rows of one cluster, in source order. -/
def rowsOfCluster (prod pkg cl : Json) : List FieldMappingRow :=
  (jArrD cl ("fieldDefinitions")).map (mkRow prod pkg cl)

/-- Per-leaf rows of one package, in source order. -/
def rowsOfPackage (prod pkg : Json) : List FieldMappingRow :=
  (jArrD pkg ("clusters")).flatMap (rowsOfCluster prod pkg)

/-- Per-leaf rows of one product, in source order. -/
def rowsOfProduct (prod : Json) : List FieldMappingRow :=
  (jArrD prod ("packages")).flatMap (rowsOfPackage prod)

/-- Characters that `serde_json` escaping leaves unchanged. -/
def plainChar (c : Char) : Prop := c ≠ '"' ∧ c ≠ '\\' ∧ 32 ≤ c.toNat

/-! Concrete documents used by witnesses and the C5 counterexample. -/
def wDef1 : Json := Json.obj [("fieldId", Json.num 1)]

def wDef2 : Json := Json.obj [("fieldId", Json.num 2)]

def wCl : Json :=
  Json.obj [("fieldClusterId", Json.num 5),
            ("fieldDefinitions", Json.arr [wDef1, wDef2])]

def wPkg : Json :=
  Json.obj [("packageId", Json.num 7), ("clusters", Json.arr [wCl])]

def wProd : Json :=
  Json.obj [("productId", Json.str ("ESG")),
            ("packages", Json.arr [wPkg])]

def cexD : Json := Json.obj []

def cexCl : Json := Json.obj [("fieldDefinitions", Json.arr [cexD])]

def cexPkg : Json := Json.obj [("clusters", Json.arr [cexCl])]

def prodNoId : Json := Json.obj [("packages", Json.arr [cexPkg])]

/-! ## Row projection and scan driving (src/lib.rs lines 359-429) -/
inductive Cell where
  | String : String → Cell
  | I64 : Int → Cell
  | Jsonb : String → Cell
deriving DecidableEq, Inhabited

/-- The three supported DataServices columns. -/
def dsColumns : List String := ["entityId", "entityName", "fields"]

/-- The fourteen supported FieldMappingDefinitions columns. -/
def fmColumns : List String :=
  ["product_id", "product_name", "package_id", "package_name",
   "field_cluster_id", "field_cluster_name", "field_id", "field_name",
   "description", "field_type", "field_length", "possible_values",
   "grouping", "parentage"]

/-- One arm of the DataServices column match (src/lib.rs lines 374-379). -/
def dataservices_cell (src : Json) (name : String) :
    Except String (Option Cell) :=
  if name = "entityId" then
    .ok ((src.get ("entityId")).map (fun v =>
      Cell.String (trimMatches '"' (jsonToString v))))
  else if name = "entityName" then
    .ok ((src.get ("entityName")).bind (fun v =>
      (Json.as_str v).map (fun s => Cell.String s)))
  else if name = "fields" then
    .ok ((src.get ("fields")).map (fun v => Cell.Jsonb (jsonToString v)))
  else .error ("unsupported column for DataServices: " ++ name)

/-- One arm of the FieldMappingDefinitions column match
(src/lib.rs lines 395-411). -/
def fieldmapping_cell (r : FieldMappingRow) (name : String) :
    Except String (Option Cell) :=
  if name = "product_id" then .ok (some (Cell.String r.product_id))
  else if name = "product_name" then .ok (r.product_name.map Cell.String)
  else if name = "package_id" then .ok (r.package_id.map Cell.I64)
  else if name = "package_name" then .ok (r.package_name.map Cell.String)
  else if name = "field_cluster_id" then .ok (r.field_cluster_id.map Cell.I64)
  else if name = "field_cluster_name" then
    .ok (r.field_cluster_name.map Cell.String)
  else if name = "field_id" then .ok (r.field_id.map Cell.I64)
  else if name = "field_name" then .ok (r.field_name.map Cell.String)
  else if name = "description" then .ok (r.description.map Cell.String)
  else if name = "field_type" then .ok (r.field_type.map Cell.String)
  else if name = "field_length" then .ok (r.field_length.map Cell.String)
  else if name = "possible_values" then
    .ok (r.possible_values.map Cell.String)
  else if name = "grouping" then .ok (r.grouping.map Cell.String)
  else if name = "parentage" then
    .ok (r.parentage.map (fun v => Cell.Jsonb (jsonToString v)))
  else .error ("unsupported column for FieldMappingDefinitions: " ++ name)

/-- The per-column loop of `iter_scan` for DataServices: pushes one cell
per requested column, aborting at the first unsupported name. -/
def project_dataservices (src : Json) : List String →
    Except String (List (Option Cell))
  | [] => .ok []
  | c :: cs =>
    match dataservices_cell src c with
    | .error e => .error e
    | .ok cell =>
      match project_dataservices src cs with
      | .error e => .error e
      | .ok rest => .ok (cell :: rest)

/-- The per-column loop of `iter_scan` for FieldMappingDefinitions. -/
def project_fieldmapping (r : FieldMappingRow) : List String →
    Except String (List (Option Cell))
  | [] => .ok []
  | c :: cs =>
    match fieldmapping_cell r c with
    | .error e => .error e
    | .ok cell =>
      match project_fieldmapping r cs with
      | .error e => .error e
      | .ok rest => .ok (cell :: rest)

/-- Embeds `iter_scan` (src/lib.rs lines 359-421): produce the next row (as the
list of cells for the requested columns) or `none` at end of data,
advancing the scan cursor held in the state. -/
def iter_scan (parseTok : String → Except String String)
    (parse : String → Except String Json) (st : FdwState) (w : World)
    (cols : List String) :
    FdwResult (Option (List (Option Cell)) × FdwState × World) :=
  match st.scan with
  | ScanState.None => .ok (none, st, w)
  | ScanState.DataServices scan =>
    match ensure_dataservices_rows parseTok parse st w scan with
    | .error e => .error e
    | .ok (scan, st, w) =>
      if h : scan.page_idx < scan.page_rows.length then
        match project_dataservices (scan.page_rows.get ⟨scan.page_idx, h⟩)
            cols with
        | .error e => .error e
        | .ok cells =>
          let scan' := { scan with page_idx := scan.page_idx + 1 }
          .ok (some cells, { st with scan := ScanState.DataServices scan' }, w)
      else
        .ok (none, { st with scan := ScanState.DataServices scan }, w)
  | ScanState.FieldMappingDefinitions scan =>
    if h : scan.idx < scan.rows.length then
      match project_fieldmapping (scan.rows.get ⟨scan.idx, h⟩) cols with
      | .error e => .error e
      | .ok cells =>
        let scan' := { scan with idx := scan.idx + 1 }
        .ok (some cells,
          { st with scan := ScanState.FieldMappingDefinitions scan' }, w)
    else
      .ok (none, { st with scan := ScanState.FieldMappingDefinitions scan }, w)

/-- Embeds `end_scan` (src/lib.rs lines 423-429). -/
def end_scan (st : FdwState) : FdwState := { st with scan := ScanState.None }

/-! ### Theorems -/

/-- C3: a missing, unparsable or `< 1` Take falls back to the default 10;
`1 ≤ n < 10` is kept; `n ≥ 10` clamps to 10; the result is always in
`[1, 10]`. -/
theorem normalize_take_spec (raw : Option String) :
    (1 ≤ normalize_take raw ∧ normalize_take raw ≤ 10) ∧
    (raw = none → normalize_take raw = 10) ∧
    (∀ s, raw = some s → parseI64 s = none → normalize_take raw = 10) ∧
    (∀ s n, raw = some s → parseI64 s = some n → n < 1 →
      normalize_take raw = 10) ∧
    (∀ s n, raw = some s → parseI64 s = some n → 1 ≤ n → n < 10 →
      normalize_take raw = n) ∧
    (∀ s n, raw = some s → parseI64 s = some n → 10 ≤ n →
      normalize_take raw = 10) := by
  have hrange : 1 ≤ normalize_take raw ∧ normalize_take raw ≤ 10 := by
    cases raw with
    | none => simp [normalize_take, DEFAULT_TAKE]
    | some s =>
      cases h : parseI64 s with
      | none => simp [normalize_take, h, DEFAULT_TAKE]
      | some n =>
        simp only [normalize_take, h, DEFAULT_TAKE, MAX_TAKE]
        split
        · omega
        · split <;> omega
  refine ⟨hrange, ?_, ?_, ?_, ?_, ?_⟩
  · rintro rfl; simp [normalize_take, DEFAULT_TAKE]
  · rintro s rfl h; simp [normalize_take, h, DEFAULT_TAKE]
  · rintro s n rfl h hn
    simp only [normalize_take, h, DEFAULT_TAKE, MAX_TAKE]
    rw [if_pos hn]
  · rintro s n rfl h h1 h10
    simp only [normalize_take, h, DEFAULT_TAKE, MAX_TAKE]
    rw [if_neg (by omega), if_pos (by omega)]
  · rintro s n rfl h h10
    simp only [normalize_take, h, DEFAULT_TAKE, MAX_TAKE]
    rw [if_neg (by omega), if_neg (by omega)]

/-- Witness for C3 at concrete inputs: `"7"` parses and is kept,
`"abc"` is unparsable and falls back to 10. -/
theorem normalize_take_spec_witness :
    normalize_take (some ("7")) = 7 ∧ normalize_take (some ("abc")) = 10 :=
  ⟨(normalize_take_spec (some ("7"))).2.2.2.2.1 ("7") 7 rfl (by decide)
      (by decide) (by decide),
   (normalize_take_spec (some ("abc"))).2.2.1 ("abc") rfl (by decide)⟩

theorem dropWhile_eq_self_of_none {α : Type} (p : α → Bool) (l : List α)
    (h : ∀ x ∈ l, p x = false) : l.dropWhile p = l := by
  cases l with
  | nil => rfl
  | cons a l =>
    rw [List.dropWhile_cons, if_neg]
    simp [h a (by simp)]

theorem trimMatches_eq_self (c : Char) (s : String)
    (h : ∀ ch ∈ s.data, ch ≠ c) : trimMatches c s = s := by
  have hb : ∀ ch ∈ s.data, (ch == c) = false := by
    intro ch hch
    simpa using h ch hch
  unfold trimMatches
  rw [dropWhile_eq_self_of_none _ _ hb,
      dropWhile_eq_self_of_none _ _ (by intro ch hch; exact hb ch (by simpa using hch)),
      List.reverse_reverse]

/-- C1: with a cached token, a first GET answering 401/403 triggers
exactly one token refresh (one POST consumed, cache replaced), the GET
is re-issued once at the same URL with the new token, and the second
response's status and parsed body are returned whatever that status is;
any other first status is returned as-is, with no refresh and no second
GET. -/
theorem get_json_with_bearer_retry (parseTok : String → Except String String)
    (parse : String → Except String Json) (st : FdwState) (w : World)
    (url tok : String) (r : HttpResponse) (rest : List HttpResponse)
    (hcache : st.cached_token = some tok)
    (hget : w.getResponses = r :: rest) :
    (¬(r.status_code = 401 ∨ r.status_code = 403) →
      ∀ v, parse r.body = .ok v →
        get_json_with_bearer parseTok parse st w url =
          .ok (r.status_code, v, st,
            { w with getResponses := rest,
                     getLog := w.getLog ++ [(url, tok)] })) ∧
    ((r.status_code = 401 ∨ r.status_code = 403) →
      ∀ (p : HttpResponse) (ps : List HttpResponse) (t2 : String)
        (r2 : HttpResponse) (rest2 : List HttpResponse) (v2 : Json),
        w.postResponses = p :: ps →
        200 ≤ p.status_code → p.status_code < 300 →
        parseTok p.body = .ok t2 →
        rest = r2 :: rest2 →
        parse r2.body = .ok v2 →
        get_json_with_bearer parseTok parse st w url =
          .ok (r2.status_code, v2, { st with cached_token := some t2 },
            { w with postResponses := ps, getResponses := rest2,
                     getLog := w.getLog ++ [(url, tok), (url, t2)] })) := by
  constructor
  · intro hst v hv
    simp [get_json_with_bearer, ensure_token, http_get, hcache, hget, hst, hv]
  · rintro hst p ps t2 r2 rest2 v2 hpost h200 h300 htok rfl hv2
    simp [get_json_with_bearer, ensure_token, fetch_token, http_get, hcache,
      hget, hst, hpost, htok, hv2, h200, h300]

/-- Witness for C1: a concrete run where the responses are [401, 200]
with one queued token-endpoint response; exactly one refresh occurs and
the 200 body is returned — and a concrete [500] run returned as-is. -/
theorem get_json_with_bearer_retry_witness :
    (get_json_with_bearer (fun _ => .ok ("T2")) (fun _ => .ok Json.null)
        ⟨"b", "i", "s", some ("T1"), ScanState.None⟩
        ⟨[⟨200, "tokbody"⟩], [⟨401, "denied"⟩, ⟨200, "okbody"⟩], []⟩ ("u") =
      .ok (200, Json.null, ⟨"b", "i", "s", some ("T2"), ScanState.None⟩,
        ⟨[], [], [("u", "T1"), ("u", "T2")]⟩)) ∧
    (get_json_with_bearer (fun _ => .ok ("T2")) (fun _ => .ok Json.null)
        ⟨"b", "i", "s", some ("T1"), ScanState.None⟩
        ⟨[⟨200, "tokbody"⟩], [⟨500, "boom"⟩], []⟩ ("u") =
      .ok (500, Json.null, ⟨"b", "i", "s", some ("T1"), ScanState.None⟩,
        ⟨[⟨200, "tokbody"⟩], [], [("u", "T1")]⟩)) := by
  constructor
  · exact (get_json_with_bearer_retry (fun _ => .ok ("T2"))
      (fun _ => .ok Json.null) ⟨"b", "i", "s", some ("T1"), ScanState.None⟩
      ⟨[⟨200, "tokbody"⟩], [⟨401, "denied"⟩, ⟨200, "okbody"⟩], []⟩ ("u")
      ("T1") ⟨401, "denied"⟩ [⟨200, "okbody"⟩] rfl rfl).2 (by decide)
      ⟨200, "tokbody"⟩ [] ("T2") ⟨200, "okbody"⟩ [] Json.null rfl
      (by decide) (by decide) rfl rfl rfl
  · exact (get_json_with_bearer_retry (fun _ => .ok ("T2"))
      (fun _ => .ok Json.null) ⟨"b", "i", "s", some ("T1"), ScanState.None⟩
      ⟨[⟨200, "tokbody"⟩], [⟨500, "boom"⟩], []⟩ ("u")
      ("T1") ⟨500, "boom"⟩ [] rfl rfl).1 (by decide) Json.null rfl

/-- C2: a page load on an unfinished scan sets `done` exactly when the
page is short (count < take), advances `skip` by exactly `take` exactly
when the page is full, and resets the in-page index; once `done` is set
both the page loader and the row-replenisher are no-ops, so no further
page is ever fetched. -/
theorem pagination_invariants (parseTok : String → Except String String)
    (parse : String → Except String Json) (st : FdwState) (w : World)
    (scan : DataServicesScan) :
    (scan.done = true →
      load_dataservices_page parseTok parse st w scan = .ok (scan, st, w)) ∧
    (scan.done = true →
      ensure_dataservices_rows parseTok parse st w scan = .ok (scan, st, w)) ∧
    (scan.done = false →
      ∀ (scan' : DataServicesScan) (st' : FdwState) (w' : World),
        load_dataservices_page parseTok parse st w scan = .ok (scan', st', w') →
        (scan'.done = true ↔ (scan'.page_rows.length : Int) < scan.params.take) ∧
        (scan.params.take ≤ (scan'.page_rows.length : Int) →
          scan'.skip = scan.skip + scan.params.take ∧ scan'.done = false) ∧
        ((scan'.page_rows.length : Int) < scan.params.take →
          scan'.skip = scan.skip) ∧
        scan'.params = scan.params ∧ scan'.page_idx = 0) := by
  refine ⟨?_, ?_, ?_⟩
  · intro hdone
    simp [load_dataservices_page, hdone]
  · intro hdone
    by_cases hidx : scan.page_idx < scan.page_rows.length
    · simp [ensure_dataservices_rows, hidx]
    · simp [ensure_dataservices_rows, hidx, hdone, load_dataservices_page]
  · intro hdone scan' st' w' hload
    rw [load_dataservices_page, if_neg (by simp [hdone])] at hload
    simp only [] at hload
    cases hg : get_json_with_bearer parseTok parse st w
        (build_dataservices_url st scan.params scan.skip) with
    | error e => rw [hg] at hload; exact absurd hload (by simp)
    | ok res =>
      obtain ⟨status, json, st1, w1⟩ := res
      rw [hg] at hload
      simp only at hload
      by_cases hok : 200 ≤ status ∧ status < 300
      · rw [if_pos hok] at hload
        cases harr : json.as_array with
        | none => rw [harr] at hload; exact absurd hload (by simp)
        | some arr =>
          rw [harr] at hload
          simp only at hload
          by_cases hshort : (arr.length : Int) < scan.params.take
          · rw [if_pos hshort] at hload
            obtain ⟨rfl, rfl, rfl⟩ := by
              simpa using hload
            refine ⟨by simp [hshort], ?_, ?_, rfl, rfl⟩
            · intro hfull; exact absurd hfull (not_le.mpr hshort)
            · intro _; rfl
          · rw [if_neg hshort] at hload
            obtain ⟨rfl, rfl, rfl⟩ := by
              simpa using hload
            refine ⟨?_, ?_, ?_, rfl, rfl⟩
            · constructor
              · intro hd; exact absurd hd (by simp [hdone])
              · intro hlt; exact absurd hlt hshort
            · intro _; exact ⟨rfl, hdone⟩
            · intro hlt; exact absurd hlt hshort
      · rw [if_neg hok] at hload
        exact absurd hload (by simp)

/-- Witness for C2: a concrete unfinished scan (take 10) receiving an
empty page becomes done with `skip` unchanged, and a second load is a
no-op. -/
theorem pagination_invariants_witness :
    (load_dataservices_page (fun _ => .ok ("T")) (fun _ => .ok (Json.arr []))
        ⟨"b", "i", "s", some ("T"), ScanState.None⟩
        ⟨[], [⟨200, "page"⟩], []⟩
        ⟨⟨"P", none, none, none, 10⟩, 0, [], 0, false⟩ =
      .ok (⟨⟨"P", none, none, none, 10⟩, 0, [], 0, true⟩,
        ⟨"b", "i", "s", some ("T"), ScanState.None⟩,
        ⟨[], [],
          [("b/v2/DataService?ProductId=P&Skip=0&Take=10", "T")]⟩)) ∧
    ((⟨⟨"P", none, none, none, 10⟩, 0, [], 0, true⟩ :
        DataServicesScan).done = true ↔
      ((([] : List Json).length : Int) < 10)) ∧
    (load_dataservices_page (fun _ => .ok ("T")) (fun _ => .ok (Json.arr []))
        ⟨"b", "i", "s", some ("T"), ScanState.None⟩ ⟨[], [], []⟩
        ⟨⟨"P", none, none, none, 10⟩, 0, [], 0, true⟩ =
      .ok (⟨⟨"P", none, none, none, 10⟩, 0, [], 0, true⟩,
        ⟨"b", "i", "s", some ("T"), ScanState.None⟩, ⟨[], [], []⟩)) := by
  have hrun : load_dataservices_page (fun _ => .ok ("T"))
      (fun _ => .ok (Json.arr []))
      ⟨"b", "i", "s", some ("T"), ScanState.None⟩
      ⟨[], [⟨200, "page"⟩], []⟩
      ⟨⟨"P", none, none, none, 10⟩, 0, [], 0, false⟩ =
    .ok (⟨⟨"P", none, none, none, 10⟩, 0, [], 0, true⟩,
      ⟨"b", "i", "s", some ("T"), ScanState.None⟩,
      ⟨[], [],
        [("b/v2/DataService?ProductId=P&Skip=0&Take=10", "T")]⟩) := rfl
  refine ⟨hrun, ?_, ?_⟩
  · have h := ((pagination_invariants (fun _ => .ok ("T"))
      (fun _ => .ok (Json.arr []))
      ⟨"b", "i", "s", some ("T"), ScanState.None⟩
      ⟨[], [⟨200, "page"⟩], []⟩
      ⟨⟨"P", none, none, none, 10⟩, 0, [], 0, false⟩).2.2 rfl
      ⟨⟨"P", none, none, none, 10⟩, 0, [], 0, true⟩
      ⟨"b", "i", "s", some ("T"), ScanState.None⟩
      ⟨[], [],
        [("b/v2/DataService?ProductId=P&Skip=0&Take=10", "T")]⟩ hrun).1
    exact h
  · exact (pagination_invariants (fun _ => .ok ("T"))
      (fun _ => .ok (Json.arr []))
      ⟨"b", "i", "s", some ("T"), ScanState.None⟩ ⟨[], [], []⟩
      ⟨⟨"P", none, none, none, 10⟩, 0, [], 0, true⟩).1 rfl

/-- C8: with `ProductId=ABC`, no optional filters and `Take` unset, the
first request URL is exactly
`{base}/v2/DataService?ProductId=ABC&Skip=0&Take=10` (also recorded in
the request log), and a 7-item response marks the scan done so that the
row-replenisher never fetches again. -/
theorem dataservices_first_page_example
    (parseTok : String → Except String String)
    (parse : String → Except String Json) (st : FdwState) (w : World)
    (tok : String) (r : HttpResponse) (rest : List HttpResponse)
    (items : List Json)
    (hbase : st.base_url = "https://api.sustainalytics.com")
    (hcache : st.cached_token = some tok)
    (hget : w.getResponses = r :: rest)
    (hstatus : r.status_code = 200)
    (hbody : parse r.body = .ok (Json.arr items))
    (hlen : items.length = 7) :
    build_dataservices_url st ⟨"ABC", none, none, none, normalize_take none⟩ 0 =
      "https://api.sustainalytics.com/v2/DataService?ProductId=ABC&Skip=0&Take=10" ∧
    load_dataservices_page parseTok parse st w
        ⟨⟨"ABC", none, none, none, normalize_take none⟩, 0, [], 0, false⟩ =
      .ok (⟨⟨"ABC", none, none, none, normalize_take none⟩, 0, items, 0, true⟩,
        st,
        { w with getResponses := rest,
                 getLog := w.getLog ++
                   [("https://api.sustainalytics.com/v2/DataService?ProductId=ABC&Skip=0&Take=10",
                     tok)] }) ∧
    (∀ idx : Nat,
      ensure_dataservices_rows parseTok parse st
          { w with getResponses := rest,
                   getLog := w.getLog ++
                     [("https://api.sustainalytics.com/v2/DataService?ProductId=ABC&Skip=0&Take=10",
                       tok)] }
          ⟨⟨"ABC", none, none, none, normalize_take none⟩, 0, items, idx, true⟩ =
        .ok (⟨⟨"ABC", none, none, none, normalize_take none⟩, 0, items, idx,
            true⟩, st,
          { w with getResponses := rest,
                   getLog := w.getLog ++
                     [("https://api.sustainalytics.com/v2/DataService?ProductId=ABC&Skip=0&Take=10",
                       tok)] })) := by
  have hurl : build_dataservices_url st
      ⟨"ABC", none, none, none, normalize_take none⟩ 0 =
      "https://api.sustainalytics.com/v2/DataService?ProductId=ABC&Skip=0&Take=10" := by
    rw [build_dataservices_url, hbase]
    decide
  refine ⟨hurl, ?_, ?_⟩
  · rw [load_dataservices_page]
    simp only [hurl, get_json_with_bearer, ensure_token, http_get, hcache,
      hget, hstatus, hbody]
    norm_num [Json.as_array, hlen, normalize_take, DEFAULT_TAKE]
  · intro idx
    by_cases hidx : idx < items.length <;>
      simp [ensure_dataservices_rows, hidx]

/-- Witness for C8: the concrete run with base
`https://api.sustainalytics.com` and a page of seven `null` items. -/
theorem dataservices_first_page_example_witness :
    load_dataservices_page (fun _ => .ok ("T"))
        (fun _ => .ok (Json.arr [.null, .null, .null, .null, .null, .null,
          .null]))
        ⟨"https://api.sustainalytics.com", "i", "s", some ("T"),
          ScanState.None⟩
        ⟨[], [⟨200, "seven"⟩], []⟩
        ⟨⟨"ABC", none, none, none, normalize_take none⟩, 0, [], 0, false⟩ =
      .ok (⟨⟨"ABC", none, none, none, normalize_take none⟩, 0,
          [.null, .null, .null, .null, .null, .null, .null], 0, true⟩,
        ⟨"https://api.sustainalytics.com", "i", "s", some ("T"),
          ScanState.None⟩,
        ⟨[], [],
          [("https://api.sustainalytics.com/v2/DataService?ProductId=ABC&Skip=0&Take=10",
            "T")]⟩) := by
  have h := (dataservices_first_page_example (fun _ => .ok ("T"))
    (fun _ => .ok (Json.arr [.null, .null, .null, .null, .null, .null, .null]))
    ⟨"https://api.sustainalytics.com", "i", "s", some ("T"), ScanState.None⟩
    ⟨[], [⟨200, "seven"⟩], []⟩ ("T") ⟨200, "seven"⟩ []
    [.null, .null, .null, .null, .null, .null, .null]
    rfl rfl rfl rfl rfl rfl).2.1
  simpa using h

theorem foldl_append_eq_bind {α β : Type} (f : α → List β) (xs : List α)
    (init : List β) :
    xs.foldl (fun acc x => acc ++ f x) init = init ++ xs.flatMap f := by
  induction xs generalizing init with
  | nil => simp
  | cons x xs ih => simp [ih]

theorem bind_singleton_eq_map {α β : Type} (g : α → β) (xs : List α) :
    (xs.flatMap fun x => [g x]) = xs.map g := by
  induction xs <;> simp_all

/-- The imperative flattening loop equals the nested-`bind` document-order
traversal. -/
theorem flatten_products_eq (products : List Json) :
    flatten_products products = products.flatMap rowsOfProduct := by
  simp only [flatten_products, rowsOfProduct, rowsOfPackage, rowsOfCluster,
    foldl_append_eq_bind, bind_singleton_eq_map, List.nil_append]
  rfl

theorem escapeChar_plain (c : Char) (h : plainChar c) :
    escapeChar c = String.singleton c := by
  obtain ⟨h1, h2, h3⟩ := h
  unfold escapeChar
  rw [if_neg h1, if_neg h2, if_neg (by omega)]

theorem escapeString_plain (s : String) (h : ∀ ch ∈ s.data, plainChar ch) :
    escapeString s = s := by
  have key : ∀ (l : List Char), (∀ ch ∈ l, plainChar ch) →
      (l.flatMap fun c => (escapeChar c).data) = l := by
    intro l hl
    induction l with
    | nil => rfl
    | cons c cs ih =>
      rw [List.flatMap_cons, escapeChar_plain c (hl c (by simp)),
        ih (fun ch hch => hl ch (by simp [hch]))]
      rfl
  obtain ⟨l⟩ := s
  unfold escapeString
  rw [key l h]

theorem trim_quote_wrap (l : List Char)
    (h : ∀ ch ∈ l, (ch == '"') = false) :
    trimMatches '"' (String.mk ('"' :: (l ++ ['"']))) = String.mk l := by
  unfold trimMatches
  congr 1
  rw [show (String.mk ('"' :: (l ++ ['"']))).data = '"' :: (l ++ ['"'])
    from rfl]
  rw [List.dropWhile_cons, if_pos (by decide)]
  cases l with
  | nil => decide
  | cons c cs =>
    rw [List.cons_append, List.dropWhile_cons, if_neg (by simp [h c (by simp)])]
    have hrest : ∀ ch ∈ cs.reverse ++ [c], (ch == '"') = false := by
      intro ch hch
      rcases List.mem_append.1 hch with h1 | h1
      · exact h ch (by simp [List.mem_reverse.1 h1])
      · rw [List.mem_singleton.1 h1]; exact h c (by simp)
    rw [List.reverse_cons, List.reverse_append, List.reverse_singleton,
      List.singleton_append, List.cons_append, List.dropWhile_cons,
      if_pos (by decide), dropWhile_eq_self_of_none _ _ hrest,
      List.reverse_append, List.reverse_singleton, List.singleton_append,
      List.reverse_reverse]

theorem jsonToString_str (s : String) :
    jsonToString (Json.str s) = "\"" ++ escapeString s ++ "\"" := by
  simp [jsonToString]

theorem mkRow_product_id_plain (prod pkg cl d : Json) (s : String)
    (hget : prod.get ("productId") = some (Json.str s))
    (hplain : ∀ ch ∈ s.data, plainChar ch) :
    (mkRow prod pkg cl d).product_id = s := by
  have hq : ∀ ch ∈ s.data, (ch == '"') = false := by
    intro ch hch
    simpa using (hplain ch hch).1
  simp only [mkRow, hget, Option.map_some', Option.getD_some]
  rw [jsonToString_str, escapeString_plain s hplain]
  obtain ⟨l⟩ := s
  rw [show ("\"" ++ String.mk l ++ "\"") = String.mk ('"' :: (l ++ ['"']))
    from rfl]
  exact trim_quote_wrap l hq

theorem sum_map_const {α : Type} (l : List α) (f : α → Nat) (c : Nat)
    (h : ∀ x ∈ l, f x = c) : (l.map f).sum = l.length * c := by
  induction l with
  | nil => simp
  | cons x xs ih =>
    rw [List.map_cons, List.sum_cons, h x (by simp),
      ih (fun y hy => h y (by simp [hy])), List.length_cons]
    ring

/-- C4: the flattener output is exactly the document-order nested
traversal (products, then packages, then clusters, then field
definitions, each in source array order, one `mkRow` per leaf carrying
its own lineage); for a uniform document with `R` products, `G`
packages each, `S` clusters each and `L` definitions each it therefore
emits exactly `R*G*S*L` rows; and when every ancestor level carries an
id (a plain non-empty `productId` string, `packageId` and
`fieldClusterId` as integers) every emitted row has non-empty ancestor
ids. -/
theorem flatten_document_order (products : List Json) (R G S L : Nat) :
    flatten_products products =
      products.flatMap (fun prod =>
        (jArrD prod ("packages")).flatMap (fun pkg =>
          (jArrD pkg ("clusters")).flatMap (fun cl =>
            (jArrD cl ("fieldDefinitions")).map (mkRow prod pkg cl)))) ∧
    (products.length = R →
      (∀ prod ∈ products, (jArrD prod ("packages")).length = G) →
      (∀ prod ∈ products, ∀ pkg ∈ jArrD prod ("packages"),
        (jArrD pkg ("clusters")).length = S) →
      (∀ prod ∈ products, ∀ pkg ∈ jArrD prod ("packages"),
        ∀ cl ∈ jArrD pkg ("clusters"),
          (jArrD cl ("fieldDefinitions")).length = L) →
      (flatten_products products).length = R * G * S * L) ∧
    ((∀ prod ∈ products, ∃ s, prod.get ("productId") = some (Json.str s) ∧
        s ≠ "" ∧ ∀ ch ∈ s.data, plainChar ch) →
      (∀ prod ∈ products, ∀ pkg ∈ jArrD prod ("packages"),
        (iGet pkg ("packageId")).isSome) →
      (∀ prod ∈ products, ∀ pkg ∈ jArrD prod ("packages"),
        ∀ cl ∈ jArrD pkg ("clusters"), (iGet cl ("fieldClusterId")).isSome) →
      ∀ row ∈ flatten_products products,
        row.product_id ≠ "" ∧ row.package_id.isSome ∧
          row.field_cluster_id.isSome) := by
  refine ⟨by rw [flatten_products_eq]; rfl, ?_, ?_⟩
  · intro hR hG hS hL
    rw [flatten_products_eq, List.length_flatMap]
    have hprod : ∀ prod ∈ products,
        (Function.comp List.length rowsOfProduct) prod = G * (S * L) := by
      intro prod hp
      have hpkg : ∀ pkg ∈ jArrD prod ("packages"),
          (Function.comp List.length (rowsOfPackage prod)) pkg = S * L := by
        intro pkg hk
        have hcl : ∀ cl ∈ jArrD pkg ("clusters"),
            (Function.comp List.length (rowsOfCluster prod pkg)) cl = L := by
          intro cl hc
          simp only [Function.comp_apply, rowsOfCluster, List.length_map]
          exact hL prod hp pkg hk cl hc
        simp only [Function.comp_apply, rowsOfPackage, List.length_flatMap]
        rw [sum_map_const _ _ _ hcl, hS prod hp pkg hk]
      simp only [Function.comp_apply, rowsOfProduct, List.length_flatMap]
      rw [sum_map_const _ _ _ hpkg, hG prod hp]
    rw [sum_map_const _ _ _ hprod, hR]
    ring
  · intro hpid hpkg hcl row hrow
    rw [flatten_products_eq] at hrow
    obtain ⟨prod, hp, hrow⟩ := List.mem_flatMap.1 hrow
    obtain ⟨pkg, hk, hrow⟩ := List.mem_flatMap.1 hrow
    obtain ⟨cl, hc, hrow⟩ := List.mem_flatMap.1 (by
      simpa [rowsOfProduct, rowsOfPackage] using hrow)
    obtain ⟨d, hd, rfl⟩ := List.mem_map.1 (by
      simpa [rowsOfCluster] using hrow)
    obtain ⟨s, hs, hne, hplain⟩ := hpid prod hp
    refine ⟨?_, ?_, ?_⟩
    · rw [mkRow_product_id_plain prod pkg cl d s hs hplain]
      exact hne
    · simpa [mkRow] using hpkg prod hp pkg hk
    · simpa [mkRow] using hcl prod hp pkg hk cl hc

/-- Witness for C4: the uniform document `[wProd]` with R=1, G=1, S=1,
L=2 yields exactly `1*1*1*2` rows. -/
theorem flatten_document_order_witness :
    (flatten_products [wProd]).length = 1 * 1 * 1 * 2 := by
  refine (flatten_document_order [wProd] 1 1 1 2).2.1 rfl ?_ ?_ ?_
  · intro prod hp
    rw [List.mem_singleton.1 hp]
    rfl
  · intro prod hp pkg hk
    rw [List.mem_singleton.1 hp] at hk
    rw [List.mem_singleton.1 hk]
    rfl
  · intro prod hp pkg hk cl hc
    rw [List.mem_singleton.1 hp] at hk
    rw [List.mem_singleton.1 hk] at hc
    rw [List.mem_singleton.1 hc]
    rfl

/-- C5 counterexample: in a document whose product lacks `productId`,
the emitted row carries the empty string as `product_id` — a present
empty-string value, not an absent one — refuting the claim for the
(non-optional) root id field. -/
theorem flatten_missing_field_counterexample :
    prodNoId.get ("productId") = none ∧
    (flatten_products [prodNoId]).map (fun r => r.product_id) = [""] :=
  ⟨rfl, rfl⟩

/-- C5 (amended): every leaf reachable by walking all siblings at all
levels yields its row in the output, and every *optional* field (all
fourteen columns except the root `product_id`, which defaults to the
empty string when `productId` is missing) that is missing at its level
is absent (`none`) in the row — never `0` and never `""`. -/
theorem flatten_optional_absent (products : List Json) (prod pkg cl d : Json)
    (hp : prod ∈ products) (hk : pkg ∈ jArrD prod ("packages"))
    (hc : cl ∈ jArrD pkg ("clusters"))
    (hd : d ∈ jArrD cl ("fieldDefinitions")) :
    mkRow prod pkg cl d ∈ flatten_products products ∧
    (prod.get ("productName") = none →
      (mkRow prod pkg cl d).product_name = none) ∧
    (pkg.get ("packageId") = none → (mkRow prod pkg cl d).package_id = none) ∧
    (pkg.get ("packageName") = none →
      (mkRow prod pkg cl d).package_name = none) ∧
    (cl.get ("fieldClusterId") = none →
      (mkRow prod pkg cl d).field_cluster_id = none) ∧
    (cl.get ("fieldClusterName") = none →
      (mkRow prod pkg cl d).field_cluster_name = none) ∧
    (d.get ("fieldId") = none → (mkRow prod pkg cl d).field_id = none) ∧
    (d.get ("fieldName") = none → (mkRow prod pkg cl d).field_name = none) ∧
    (d.get ("description") = none →
      (mkRow prod pkg cl d).description = none) ∧
    (d.get ("fieldType") = none → (mkRow prod pkg cl d).field_type = none) ∧
    (d.get ("fieldLength") = none →
      (mkRow prod pkg cl d).field_length = none) ∧
    (d.get ("possibleValues") = none →
      (mkRow prod pkg cl d).possible_values = none) ∧
    (d.get ("grouping") = none → (mkRow prod pkg cl d).grouping = none) ∧
    (d.get ("parentage") = none → (mkRow prod pkg cl d).parentage = none) := by
  refine ⟨?_, ?_, ?_, ?_, ?_, ?_, ?_, ?_, ?_, ?_, ?_, ?_, ?_, ?_⟩
  · rw [flatten_products_eq]
    exact List.mem_flatMap.2 ⟨prod, hp, List.mem_flatMap.2 ⟨pkg, hk,
      List.mem_flatMap.2 ⟨cl, hc, List.mem_map.2 ⟨d, hd, rfl⟩⟩⟩⟩
  all_goals intro h
  all_goals simp [mkRow, sGet, iGet, h]

/-- Witness for C5 (amended): in the one-leaf counterexample document
the leaf's row is emitted and its optional `product_name`,
`package_id` and `field_name` are all absent. -/
theorem flatten_optional_absent_witness :
    mkRow prodNoId cexPkg cexCl cexD ∈ flatten_products [prodNoId] ∧
    (mkRow prodNoId cexPkg cexCl cexD).product_name = none ∧
    (mkRow prodNoId cexPkg cexCl cexD).package_id = none ∧
    (mkRow prodNoId cexPkg cexCl cexD).field_name = none := by
  have h := flatten_optional_absent [prodNoId] prodNoId cexPkg cexCl cexD
    (by simp)
    (show cexPkg ∈ ([cexPkg]) from by simp)
    (show cexCl ∈ ([cexCl]) from by simp)
    (show cexD ∈ ([cexD]) from by simp)
  exact ⟨h.1, h.2.1 rfl, h.2.2.1 rfl, h.2.2.2.2.2.2.2.1 rfl⟩

/-- C6: a missing (or non-array) `packages`, `clusters` or
`fieldDefinitions` member makes that level an empty list, so the branch
contributes zero rows; the flattener is a total function (it has no
error outcome) and on a one-product document it returns exactly that
product's rows. -/
theorem missing_nested_lists (prod pkg cl : Json) :
    ((prod.get ("packages")).bind Json.as_array = none →
      rowsOfProduct prod = []) ∧
    ((pkg.get ("clusters")).bind Json.as_array = none →
      rowsOfPackage prod pkg = []) ∧
    ((cl.get ("fieldDefinitions")).bind Json.as_array = none →
      rowsOfCluster prod pkg cl = []) ∧
    flatten_products [prod] = rowsOfProduct prod := by
  refine ⟨?_, ?_, ?_, ?_⟩
  · intro h; simp [rowsOfProduct, jArrD, h]
  · intro h; simp [rowsOfPackage, jArrD, h]
  · intro h; simp [rowsOfCluster, jArrD, h]
  · rw [flatten_products_eq]; simp

/-- Witness for C6: a product with no `packages` member yields zero
rows, and a cluster whose `fieldDefinitions` is a non-array yields zero
rows. -/
theorem missing_nested_lists_witness :
    rowsOfProduct (Json.obj []) = [] ∧
    rowsOfCluster (Json.obj []) (Json.obj [])
      (Json.obj [("fieldDefinitions", Json.num 3)]) = [] ∧
    flatten_products [Json.obj []] = rowsOfProduct (Json.obj []) := by
  have h := missing_nested_lists (Json.obj []) (Json.obj [])
    (Json.obj [("fieldDefinitions", Json.num 3)])
  exact ⟨h.1 rfl, h.2.2.1 rfl, h.2.2.2⟩

theorem dataservices_cell_ok (src : Json) (name : String)
    (h : name ∈ dsColumns) : ∃ cell, dataservices_cell src name = .ok cell := by
  simp only [dsColumns, List.mem_cons, List.mem_singleton] at h
  rcases h with rfl | rfl | rfl | h
  · exact ⟨_, rfl⟩
  · exact ⟨_, rfl⟩
  · exact ⟨_, rfl⟩
  · simp at h

theorem dataservices_cell_err (src : Json) (name : String)
    (h : name ∉ dsColumns) :
    dataservices_cell src name =
      .error ("unsupported column for DataServices: " ++ name) := by
  simp only [dsColumns, List.mem_cons, List.mem_singleton, not_or] at h
  simp [dataservices_cell, h.1, h.2.1, h.2.2]

theorem fieldmapping_cell_ok (r : FieldMappingRow) (name : String)
    (h : name ∈ fmColumns) : ∃ cell, fieldmapping_cell r name = .ok cell := by
  simp only [fmColumns, List.mem_cons, List.mem_singleton] at h
  rcases h with rfl | rfl | rfl | rfl | rfl | rfl | rfl | rfl | rfl | rfl |
    rfl | rfl | rfl | rfl | h
  case _ => exact ⟨_, rfl⟩
  case _ => exact ⟨_, rfl⟩
  case _ => exact ⟨_, rfl⟩
  case _ => exact ⟨_, rfl⟩
  case _ => exact ⟨_, rfl⟩
  case _ => exact ⟨_, rfl⟩
  case _ => exact ⟨_, rfl⟩
  case _ => exact ⟨_, rfl⟩
  case _ => exact ⟨_, rfl⟩
  case _ => exact ⟨_, rfl⟩
  case _ => exact ⟨_, rfl⟩
  case _ => exact ⟨_, rfl⟩
  case _ => exact ⟨_, rfl⟩
  case _ => exact ⟨_, rfl⟩
  case _ => simp at h

theorem fieldmapping_cell_err (r : FieldMappingRow) (name : String)
    (h : name ∉ fmColumns) :
    fieldmapping_cell r name =
      .error ("unsupported column for FieldMappingDefinitions: " ++ name) := by
  simp only [fmColumns, List.mem_cons, List.mem_singleton, not_or] at h
  obtain ⟨h1, h2, h3, h4, h5, h6, h7, h8, h9, h10, h11, h12, h13, h14⟩ := h
  simp [fieldmapping_cell, h1, h2, h3, h4, h5, h6, h7, h8, h9, h10, h11,
    h12, h13, h14]

theorem project_dataservices_err (src : Json) (cols : List String)
    (c : String) (hc : c ∈ cols) (hbad : c ∉ dsColumns) :
    ∃ bad, bad ∈ cols ∧ bad ∉ dsColumns ∧
      project_dataservices src cols =
        .error ("unsupported column for DataServices: " ++ bad) := by
  induction cols with
  | nil => simp at hc
  | cons x xs ih =>
    by_cases hx : x ∈ dsColumns
    · obtain ⟨cell, hcell⟩ := dataservices_cell_ok src x hx
      have hcx : c ∈ xs := by
        rcases List.mem_cons.1 hc with rfl | h
        · exact absurd hx hbad
        · exact h
      obtain ⟨bad, hb1, hb2, herr⟩ := ih hcx
      exact ⟨bad, by simp [hb1], hb2,
        by simp [project_dataservices, hcell, herr]⟩
    · exact ⟨x, by simp, hx,
        by simp [project_dataservices, dataservices_cell_err src x hx]⟩

theorem project_fieldmapping_err (r : FieldMappingRow) (cols : List String)
    (c : String) (hc : c ∈ cols) (hbad : c ∉ fmColumns) :
    ∃ bad, bad ∈ cols ∧ bad ∉ fmColumns ∧
      project_fieldmapping r cols =
        .error ("unsupported column for FieldMappingDefinitions: " ++ bad) := by
  induction cols with
  | nil => simp at hc
  | cons x xs ih =>
    by_cases hx : x ∈ fmColumns
    · obtain ⟨cell, hcell⟩ := fieldmapping_cell_ok r x hx
      have hcx : c ∈ xs := by
        rcases List.mem_cons.1 hc with rfl | h
        · exact absurd hx hbad
        · exact h
      obtain ⟨bad, hb1, hb2, herr⟩ := ih hcx
      exact ⟨bad, by simp [hb1], hb2,
        by simp [project_fieldmapping, hcell, herr]⟩
    · exact ⟨x, by simp, hx,
        by simp [project_fieldmapping, fieldmapping_cell_err r x hx]⟩

/-- C7: a row-production call whose requested column set contains a name
outside the scanner's supported schema (three columns for DataServices,
fourteen for FieldMappingDefinitions) fails with an error naming an
offending column, emitting no row and leaving the cursor where it was. -/
theorem unsupported_column_rejected (parseTok : String → Except String String)
    (parse : String → Except String Json) (st : FdwState) (w : World)
    (cols : List String) (c : String) (hc : c ∈ cols) :
    (∀ scan, st.scan = ScanState.DataServices scan →
      scan.page_idx < scan.page_rows.length → c ∉ dsColumns →
      ∃ bad, bad ∈ cols ∧ bad ∉ dsColumns ∧
        iter_scan parseTok parse st w cols =
          .error ("unsupported column for DataServices: " ++ bad)) ∧
    (∀ scan, st.scan = ScanState.FieldMappingDefinitions scan →
      scan.idx < scan.rows.length → c ∉ fmColumns →
      ∃ bad, bad ∈ cols ∧ bad ∉ fmColumns ∧
        iter_scan parseTok parse st w cols =
          .error ("unsupported column for FieldMappingDefinitions: " ++ bad)) := by
  constructor
  · intro scan hscan hidx hbad
    obtain ⟨bad, hb1, hb2, herr⟩ :=
      project_dataservices_err (scan.page_rows.get ⟨scan.page_idx, hidx⟩)
        cols c hc hbad
    refine ⟨bad, hb1, hb2, ?_⟩
    rw [List.get_eq_getElem] at herr
    simp [iter_scan, hscan, ensure_dataservices_rows, hidx, herr]
  · intro scan hscan hidx hbad
    obtain ⟨bad, hb1, hb2, herr⟩ :=
      project_fieldmapping_err (scan.rows.get ⟨scan.idx, hidx⟩) cols c hc hbad
    refine ⟨bad, hb1, hb2, ?_⟩
    rw [List.get_eq_getElem] at herr
    simp [iter_scan, hscan, hidx, herr]

/-- Witness for C7: requesting the column `bogus` from either scanner
(each positioned on one row) fails naming `bogus`. -/
theorem unsupported_column_rejected_witness :
    iter_scan (fun _ => .ok ("T")) (fun _ => .ok Json.null)
      ⟨"b", "i", "s", some ("T"),
        ScanState.DataServices ⟨⟨"P", none, none, none, 10⟩, 0, [Json.null],
          0, true⟩⟩ ⟨[], [], []⟩ ["bogus"] =
      .error ("unsupported column for DataServices: bogus") ∧
    iter_scan (fun _ => .ok ("T")) (fun _ => .ok Json.null)
      ⟨"b", "i", "s", some ("T"),
        ScanState.FieldMappingDefinitions
          ⟨[mkRow (Json.obj []) (Json.obj []) (Json.obj []) (Json.obj [])],
            0⟩⟩ ⟨[], [], []⟩ ["bogus"] =
      .error ("unsupported column for FieldMappingDefinitions: bogus") := by
  constructor
  · obtain ⟨bad, hb1, hb2, herr⟩ :=
      (unsupported_column_rejected (fun _ => .ok ("T"))
        (fun _ => .ok Json.null)
        ⟨"b", "i", "s", some ("T"),
          ScanState.DataServices ⟨⟨"P", none, none, none, 10⟩, 0, [Json.null],
            0, true⟩⟩ ⟨[], [], []⟩ ["bogus"] ("bogus") (by simp)).1
      ⟨⟨"P", none, none, none, 10⟩, 0, [Json.null], 0, true⟩ rfl
      (by simp) (by decide)
    have hb : bad = "bogus" := List.mem_singleton.1 hb1
    rw [hb] at herr
    exact herr
  · obtain ⟨bad, hb1, hb2, herr⟩ :=
      (unsupported_column_rejected (fun _ => .ok ("T"))
        (fun _ => .ok Json.null)
        ⟨"b", "i", "s", some ("T"),
          ScanState.FieldMappingDefinitions
            ⟨[mkRow (Json.obj []) (Json.obj []) (Json.obj []) (Json.obj [])],
              0⟩⟩ ⟨[], [], []⟩ ["bogus"] ("bogus") (by simp)).2
      ⟨[mkRow (Json.obj []) (Json.obj []) (Json.obj []) (Json.obj [])], 0⟩ rfl
      (by simp) (by decide)
    have hb : bad = "bogus" := List.mem_singleton.1 hb1
    rw [hb] at herr
    exact herr

/-- C9: calling the row-production operation while no scan is active
(the `None` variant, as after `end_scan`) returns end-of-data (`none`)
rather than an error and leaves the state and world unchanged. -/
theorem iter_scan_inactive (parseTok : String → Except String String)
    (parse : String → Except String Json) (st : FdwState) (w : World)
    (cols : List String) (h : st.scan = ScanState.None) :
    iter_scan parseTok parse st w cols = .ok (none, st, w) ∧
    iter_scan parseTok parse (end_scan st) w cols =
      .ok (none, end_scan st, w) := by
  constructor
  · simp [iter_scan, h]
  · simp [iter_scan, end_scan]

/-- Witness for C9 at a concrete inactive state. -/
theorem iter_scan_inactive_witness :
    iter_scan (fun _ => .ok ("T")) (fun _ => .ok Json.null)
      ⟨"b", "i", "s", none, ScanState.None⟩ ⟨[], [], []⟩ ["entityId"] =
      .ok (none, ⟨"b", "i", "s", none, ScanState.None⟩, ⟨[], [], []⟩) :=
  (iter_scan_inactive (fun _ => .ok ("T")) (fun _ => .ok Json.null)
    ⟨"b", "i", "s", none, ScanState.None⟩ ⟨[], [], []⟩ ["entityId"] rfl).1

theorem toNat_ofNat_small (m : Nat) (h : m < 55296) :
    (Char.ofNat m).toNat = m := by
  have hv : m.isValidChar := Or.inl h
  rw [Char.ofNat, dif_pos hv]
  simp [Char.ofNatAux, Char.toNat, UInt32.toNat, UInt32.ofNat',
    BitVec.toNat_ofNatLt]

theorem natDecimalAux_digits (fuel n : Nat) :
    ∀ ch ∈ natDecimalAux fuel n, 48 ≤ ch.toNat ∧ ch.toNat ≤ 57 := by
  induction fuel generalizing n with
  | zero => intro ch hch; simp [natDecimalAux] at hch
  | succ fuel ih =>
    intro ch hch
    rw [natDecimalAux] at hch
    by_cases h10 : n < 10
    · rw [if_pos h10] at hch
      rw [List.mem_singleton.1 hch, toNat_ofNat_small (48 + n) (by omega)]
      omega
    · rw [if_neg h10] at hch
      rcases List.mem_append.1 hch with h1 | h1
      · exact ih (n / 10) ch h1
      · rw [List.mem_singleton.1 h1,
          toNat_ofNat_small (48 + n % 10) (by omega)]
        omega

theorem intToDecimal_no_quote (i : Int) :
    ∀ ch ∈ (intToDecimal i).data, ch ≠ '"' := by
  have hd : ∀ ch ∈ natDecimalAux (i.natAbs + 1) i.natAbs, ch ≠ '"' := by
    intro ch h heq
    have hn := natDecimalAux_digits (i.natAbs + 1) i.natAbs ch h
    rw [heq] at hn
    have h34 : ('"').toNat = 34 := rfl
    omega
  intro ch hch
  unfold intToDecimal natToDecimal at hch
  split at hch
  · rw [show ("-" ++ String.mk (natDecimalAux (i.natAbs + 1) i.natAbs)).data =
        '-' :: natDecimalAux (i.natAbs + 1) i.natAbs from rfl] at hch
    rcases List.mem_cons.1 hch with rfl | h1
    · decide
    · exact hd ch h1
  · exact hd ch hch

/-- C10: the listing projection produces `entityId` for every present
value of any JSON type by serializing it and trimming surrounding
double quotes — JSON `null` becomes the string `"null"`, an integer
becomes its decimal text — while `entityName` is absent whenever it is
present but not a JSON string. -/
theorem entityid_projection (src : Json) :
    (∀ v, src.get ("entityId") = some v →
      dataservices_cell src ("entityId") =
        .ok (some (Cell.String (trimMatches '"' (jsonToString v))))) ∧
    (src.get ("entityId") = some Json.null →
      dataservices_cell src ("entityId") =
        .ok (some (Cell.String ("null")))) ∧
    (∀ n : Int, src.get ("entityId") = some (Json.num n) →
      dataservices_cell src ("entityId") =
        .ok (some (Cell.String (intToDecimal n)))) ∧
    (∀ v, src.get ("entityName") = some v → v.as_str = none →
      dataservices_cell src ("entityName") = .ok none) := by
  refine ⟨?_, ?_, ?_, ?_⟩
  · intro v h
    simp [dataservices_cell, h]
  · intro h
    have hnull : trimMatches '"' (jsonToString Json.null) = "null" := by
      rw [show jsonToString Json.null = "null" from by simp [jsonToString]]
      decide
    simp [dataservices_cell, h, hnull]
  · intro n h
    have hnum : trimMatches '"' (jsonToString (Json.num n)) = intToDecimal n := by
      rw [show jsonToString (Json.num n) = intToDecimal n from by
        simp [jsonToString]]
      exact trimMatches_eq_self '"' (intToDecimal n) (intToDecimal_no_quote n)
    simp [dataservices_cell, h, hnum]
  · intro v h hs
    simp [dataservices_cell, h, hs]

/-- Witness for C10: a null `entityId` projects to the string `null`,
a numeric `entityId` to `-42`, and a numeric `entityName` is absent. -/
theorem entityid_projection_witness :
    dataservices_cell (Json.obj [("entityId", Json.null)]) ("entityId") =
      .ok (some (Cell.String ("null"))) ∧
    dataservices_cell (Json.obj [("entityId", Json.num (-42))]) ("entityId") =
      .ok (some (Cell.String ("-42"))) ∧
    dataservices_cell (Json.obj [("entityName", Json.num 3)]) ("entityName") =
      .ok none := by
  refine ⟨?_, ?_, ?_⟩
  · exact (entityid_projection (Json.obj [("entityId", Json.null)])).2.1 rfl
  · have h := (entityid_projection
      (Json.obj [("entityId", Json.num (-42))])).2.2.1 (-42) rfl
    rw [show intToDecimal (-42) = "-42" from rfl] at h
    exact h
  · exact (entityid_projection (Json.obj [("entityName", Json.num 3)])).2.2.2
      (Json.num 3) rfl rfl

end SustainalyticsFdw
